import Mathlib

/-!
Verification of the SeriaLib schema compiler (src/generate.py), focused on the
behaviour of the *generated* dynamic-language (Python) library.  The emitter
`StructDefinition.generate_python` / `Schema.generate_python` produces one class
per declaration with `__init__`, property getters/setters, `__repr__`,
`serialize`, a classmethod `deserialize`, and a module-level `deserialize`
dispatcher.  We embed the semantics of that generated code, parameterised by
the (resolved) schema, and prove or refute the spec's claims about it.

Modelling conventions:
  * Python exceptions are modelled by `Except PyErr`; a `.error` result is a
    raised exception, `.ok` a normal return.
  * Python strings are modelled by their UTF-8 byte sequences (`List Nat`);
    `len` returns the byte count, which agrees with Python's character count
    on the ASCII strings appearing in every scenario.
  * Enum instances (`IntEnum` subclasses) are modelled as `Value.vEnum n`,
    carrying their integer value.
  * Recursion of `serialize` into nested table values is guarded by a fuel
    parameter; running out of fuel models Python's `RecursionError`.
-/

namespace SeriaLib

/-- Python exceptions that the generated code can raise. -/
inductive PyErr where
  | valueError (msg : String)
  | typeError (msg : String)
  | nameError (msg : String)
  | indexError
  | overflowError
  | recursionError
  deriving DecidableEq, Repr

/-- A default literal attached to a struct member (number or string). -/
inductive DefaultVal where
  | dInt (n : Int)
  | dStr (s : List Nat)
  deriving DecidableEq, Repr

mutual

/-- The resolved type of a struct member: a builtin primitive, a resolved
enum declaration (underlying byte width plus recorded value set), or a
resolved struct/table declaration (structs and tables share all behaviour:
`TableDefinition` subclasses `StructDefinition` with no overrides). -/
inductive MemberType where
  | boolean
  | stringT
  | intPrim (byteWidth : Nat) (signed : Bool)
  | enumT (byteWidth : Nat) (values : List Int)
  | structT (d : StructDef)

/-- A struct/table member after resolution: name, type, optional default,
vector flag, optional fixed vector size, and assigned field id. -/
inductive StructMember where
  | mk (name : String) (type : MemberType) (defaultVal : Option DefaultVal)
      (vector : Bool) (vectorSize : Option Nat) (fieldId : Nat)

/-- A struct/table declaration after resolution: name, assigned table id and
ordered members. -/
inductive StructDef where
  | mk (name : String) (tableId : Nat) (members : List StructMember)

end

def StructMember.name : StructMember → String
  | .mk n _ _ _ _ _ => n

def StructMember.type : StructMember → MemberType
  | .mk _ t _ _ _ _ => t

def StructMember.defaultVal : StructMember → Option DefaultVal
  | .mk _ _ d _ _ _ => d

def StructMember.vector : StructMember → Bool
  | .mk _ _ _ v _ _ => v

def StructMember.vectorSize : StructMember → Option Nat
  | .mk _ _ _ _ s _ => s

def StructMember.fieldId : StructMember → Nat
  | .mk _ _ _ _ _ f => f

def StructDef.name : StructDef → String
  | .mk n _ _ => n

def StructDef.tableId : StructDef → Nat
  | .mk _ t _ => t

def StructDef.members : StructDef → List StructMember
  | .mk _ _ ms => ms

/-- A schema definition: an enum declaration (only its name matters for the
id-assignment pass, since enums are outside the table-id space) or a
struct/table declaration. -/
inductive Defn where
  | enumD (name : String)
  | structD (d : StructDef)

/-- A Python runtime value held in a generated instance slot. -/
inductive Value where
  | vInt (n : Int)
  | vBool (b : Bool)
  | vStr (s : List Nat)
  | vEnum (n : Int)
  | vList (vs : List Value)
  | vInst (d : StructDef) (slots : List (Option Value))

/-- Python truthiness of a value (`if self._field:` etc.). -/
def truthy : Value → Bool
  | .vInt n => n != 0
  | .vBool b => b
  | .vStr s => !s.isEmpty
  | .vEnum n => n != 0
  | .vList vs => !vs.isEmpty
  | .vInst _ _ => true

/-- Python `len(v)`: defined for lists and strings, `TypeError` otherwise. -/
def pyLen : Value → Except PyErr Nat
  | .vList vs => .ok vs.length
  | .vStr s => .ok s.length
  | _ => .error (.typeError "object has no len")

/-- `len` applied to a slot that may hold Python `None`. -/
def pyLenOpt : Option Value → Except PyErr Nat
  | none => .error (.typeError "NoneType has no len")
  | some v => pyLen v

/-- Coercion of a value to a Python int, as performed by `int.to_bytes` and
`IntEnum` construction (ints, bools, and `IntEnum` members are ints). -/
def intOf : Value → Except PyErr Int
  | .vInt n => .ok n
  | .vEnum n => .ok n
  | .vBool b => .ok (if b then 1 else 0)
  | _ => .error (.typeError "an integer is required")

/-- Big-endian byte string of `v mod 2^(8*w)`, `w` bytes long.  Helper for the
generated `uint8`/`uint16`/`uint32`/`uint64` functions, which all call
`value.to_bytes(width, 'big', signed=False)`. -/
def beBytes : Nat → Nat → List Nat
  | 0, _ => []
  | w+1, v => beBytes w (v / 256) ++ [v % 256]

/-- The generated `uintN` helpers: `value.to_bytes(w, 'big', signed=False)`.
Out-of-range values raise `OverflowError` exactly as in Python. -/
def toBytesBE (w : Nat) (n : Int) : Except PyErr (List Nat) :=
  if 0 ≤ n ∧ n < 2 ^ (8 * w) then .ok (beBytes w n.toNat) else .error .overflowError

/-- The generated `unsigned_int` helper: `int.from_bytes(buf, 'big')`. -/
def fromBytesBE (l : List Nat) : Nat :=
  l.foldl (fun a b => a * 256 + b) 0

/-- `Schema.serialize_py_varint`: the varint-encoding code inlined by the
generator at every length/count site.  Note two source facts reproduced here:
the multi-byte payloads go through the big-endian `uintN` helpers, and the
`> 0xFFFFFFFF` branch emits `buf.extend(uint64(length))`, referencing the
undefined name `length` (every call site names its value `field_length`,
`child_length` or `string_length`), so that branch raises `NameError`. -/
def serializePyVarint (v : Nat) : Except PyErr (List Nat) :=
  if v > 0xFFFFFFFF then .error (.nameError "length is not defined")
  else if v > 0xFFFF then do
    let b ← toBytesBE 4 (v : Int)
    pure (0xFE :: b)
  else if v ≥ 0xFD then do
    let b ← toBytesBE 2 (v : Int)
    pure (0xFD :: b)
  else toBytesBE 1 (v : Int)

/-- `Schema.deserialize_py_varint`: reads the specifier byte at `i` and then a
big-endian integer via `unsigned_int` over a Python slice (slices silently
truncate at the end of the buffer). -/
def deserializePyVarint (buf : List Nat) (i : Nat) : Except PyErr (Nat × Nat) :=
  match buf.get? i with
  | none => .error .indexError
  | some specifier =>
    if specifier == 0xFF then .ok (fromBytesBE ((buf.drop (i+1)).take 8), i + 9)
    else if specifier == 0xFE then .ok (fromBytesBE ((buf.drop (i+1)).take 4), i + 5)
    else if specifier == 0xFD then .ok (fromBytesBE ((buf.drop (i+1)).take 2), i + 3)
    else .ok (specifier, i + 1)

/-- The table-id prefix emitted at the top of every generated `serialize`
(`StructDefinition.generate_python`).  For ids at or above 0xFD the generator
emits expressions such as `b'0xFD' + uint16(id)`: `b'0xFD'` is the four ASCII
characters `0`, `x`, `F`, `D` (bytes 48, 120, 70, 68), not the marker byte,
and `uint16` is big-endian. -/
def tableIdBytes (tid : Nat) : List Nat :=
  if tid > 0xFFFFFFFF then [48, 120, 70, 70] ++ beBytes 8 tid
  else if tid > 0xFFFF then [48, 120, 70, 69] ++ beBytes 4 tid
  else if tid ≥ 0xFD then [48, 120, 70, 68] ++ beBytes 2 tid
  else beBytes 1 tid

/-- `(n - 1) // 8 + 1` with Python floor division (0 when `n = 0`): the
presence-bitmap byte width `bitfield_byte_width` and also the packed-byte
count for boolean vectors. -/
def bitfieldByteWidth (n : Nat) : Nat :=
  (((n : Int) - 1).fdiv 8 + 1).toNat

/-- The bit mask `1 << (7 - i & 7)` as computed by Python (where `-` binds
tighter than `&`, and `& 7` on an int is `mod 8`). -/
def msbMask (i : Nat) : Nat :=
  1 <<< (((7 - (i : Int)) % 8).toNat)

/-- `buf[i] |= mask` on a byte list. -/
def listOrByte (l : List Nat) (i : Nat) (mask : Nat) : List Nat :=
  l.set i (l.getD i 0 ||| mask)

/-- Generation-time test `isinstance(member.type, EnumDefinition)`. -/
def MemberType.isEnum : MemberType → Bool
  | .enumT _ _ => true
  | _ => false

/-- Generation-time test `self.type is Primitives.Boolean`. -/
def MemberType.isBoolean : MemberType → Bool
  | .boolean => true
  | _ => false

/-- Generation-time truthiness of `member.vector_size` in the emitter's
`if member.vector and member.vector_size:` (false for `None` and for 0). -/
def truthyVecSize : Option Nat → Bool
  | none => false
  | some n => n != 0

/-- `TypeName(value)` for an `IntEnum` subclass: accepts ints (including
bools and enum members) whose value is in the declared member set, raising
`ValueError` otherwise. -/
def enumCoerce (t : MemberType) (v : Value) : Except PyErr Value :=
  match t with
  | .enumT _ values =>
    match intOf v with
    | .ok n => if values.contains n then .ok (.vEnum n) else .error (.valueError "not a valid enum member")
    | .error _ => .error (.valueError "not a valid enum member")
  | _ => .error (.typeError "not an enum type")

/-- The default expression baked into a generated getter: `repr(bool(d))` for
boolean members, `TypeName(d)` for enum members, `repr(d)` otherwise
(`StructDefinition.generate_python`, property getter emission). -/
def coercedDefault (t : MemberType) (dv : DefaultVal) : Value :=
  match t, dv with
  | .boolean, .dInt n => .vBool (n != 0)
  | .enumT _ _, .dInt n => .vEnum n
  | _, .dInt n => .vInt n
  | _, .dStr s => .vStr s

/-- The generated property getter: returns the stored slot, substituting the
(coerced) default when the slot is `None` and a default was declared. -/
def pyGet (m : StructMember) (slot : Option Value) : Option Value :=
  match m.defaultVal with
  | some dv =>
    match slot with
    | none => some (coercedDefault m.type dv)
    | some v => some v
  | none => slot

/-- The generated property setter.  The fixed-size length check is emitted
only under the generation-time condition `member.vector and member.vector_size`
(so not when the declared size is 0); the enum coercion only for non-vector
enum-typed members; otherwise the value is stored as passed. -/
def pySet (m : StructMember) (value : Option Value) : Except PyErr (Option Value) := do
  if m.vector && truthyVecSize m.vectorSize then
    match value with
    | some v =>
      let l ← pyLen v
      if l ≠ m.vectorSize.getD 0 then
        Except.error (.valueError "must be a list of fixed size")
      else pure ()
    | none => pure ()
  else pure ()
  if !m.vector && m.type.isEnum then
    match value with
    | none => pure none
    | some v => do
      let e ← enumCoerce m.type v
      pure (some e)
  else pure value

/-- One member's `__init__` code (`StructMember.generate_python_initialize`):
unbounded vectors normalize a `None` argument to `[]`; every assignment goes
through the property setter. -/
def pyInitMember (m : StructMember) (arg : Option Value) : Except PyErr (Option Value) :=
  if m.vector && m.vectorSize.isNone then
    match arg with
    | none => pySet m (some (.vList []))
    | some v => pySet m (some v)
  else pySet m arg

/-- The sequence of per-member assignments in the generated `__init__`. -/
def initLoop : List (StructMember × Option Value) → Except PyErr (List (Option Value))
  | [] => .ok []
  | (m, a) :: rest => do
    let s ← pyInitMember m a
    let ss ← initLoop rest
    pure (s :: ss)

/-- The generated `__init__`: constructs an instance from (optional,
defaulting to `None`) per-member arguments. -/
def pyInit (d : StructDef) (args : List (Option Value)) : Except PyErr Value := do
  let slots ← initLoop (d.members.zip args)
  pure (.vInst d slots)

/-- `cls()`: the generated class applied with every argument omitted. -/
def pyNew (d : StructDef) : Except PyErr Value :=
  pyInit d (List.replicate d.members.length none)

/-- The presence test in the generated `serialize`: `len(self._f) > 0` for
unbounded vectors, `self._f is not None` otherwise. -/
def memberPresent (m : StructMember) (slot : Option Value) : Except PyErr Bool :=
  if m.vector && m.vectorSize.isNone then do
    let l ← pyLenOpt slot
    pure (decide (0 < l))
  else pure slot.isSome

/-- The presence test in the generated `__repr__`, which reads the *property*
(`self.field`), not the raw slot. -/
def reprShown (m : StructMember) (slot : Option Value) : Except PyErr Bool :=
  if m.vector && m.vectorSize.isNone then do
    let l ← pyLenOpt (pyGet m slot)
    pure (decide (0 < l))
  else pure (pyGet m slot).isSome

/-- `self.field.serialize()` on a stored value: dispatches to the instance's
own class; non-instances have no such attribute. -/
def serChild (serFn : StructDef → List (Option Value) → Except PyErr (List Nat))
    (v : Value) : Except PyErr (List Nat) :=
  match v with
  | .vInst d slots => serFn d slots
  | _ => .error (.typeError "object has no attribute serialize")

/-- Payload of one vector element in the generated serialize loop
(`StructMember.generate_python_serialize`, vector branch; booleans are handled
separately through the packed `data` bytearray). -/
def serElemPayload (serFn : StructDef → List (Option Value) → Except PyErr (List Nat))
    (t : MemberType) (v : Value) : Except PyErr (List Nat) :=
  match t with
  | .structT _ => do
    let child ← serChild serFn v
    let pre ← serializePyVarint child.length
    pure (pre ++ child)
  | .enumT w _ => do
    let n ← intOf v
    toBytesBE w n
  | .stringT =>
    match v with
    | .vStr s => do
      let pre ← serializePyVarint s.length
      pure (pre ++ s)
    | _ => .error (.typeError "object has no len")
  | .intPrim w _ => do
    let n ← intOf v
    toBytesBE w n
  | .boolean => .error (.typeError "boolean elements are packed separately")

/-- The element loop `for i in range(field_length)` over a non-boolean vector:
indexes `self._f[i]` and appends each element's payload. -/
def serVecGo (serFn : StructDef → List (Option Value) → Except PyErr (List Nat))
    (t : MemberType) (xs : List Value) (i : Nat) : Nat → Except PyErr (List Nat)
  | 0 => .ok []
  | rem+1 =>
    match xs.get? i with
    | none => .error .indexError
    | some v => do
      let p ← serElemPayload serFn t v
      let rest ← serVecGo serFn t xs (i+1) rem
      pure (p ++ rest)

/-- The packed-bit loop for boolean vectors: `data[i//8] |= 1 << (7 - i & 7)`
for each truthy element. -/
def boolVecGo (xs : List Value) (data : List Nat) (i : Nat) : Nat → Except PyErr (List Nat)
  | 0 => .ok data
  | rem+1 =>
    match xs.get? i with
    | none => .error .indexError
    | some v =>
      boolVecGo xs (if truthy v then listOrByte data (i / 8) (msbMask i) else data) (i+1) rem

/-- Boolean-vector payload: `data = bytearray(((field_length - 1) // 8) + 1)`
followed by the packed-bit loop. -/
def boolVecData (xs : List Value) (count : Nat) : Except PyErr (List Nat) :=
  boolVecGo xs (List.replicate (bitfieldByteWidth count) 0) 0 count

/-- The stored value of a vector member, which the generated code indexes and
measures with `len`; only lists are modelled (the scenarios never store other
sized objects in vector members). -/
def asPyList : Option Value → Except PyErr (List Value)
  | some (.vList vs) => .ok vs
  | _ => .error (.typeError "not a list")

/-- The payload bytes appended for one *present* member
(`StructMember.generate_python_serialize`). -/
def serMemberPayloadGo (serFn : StructDef → List (Option Value) → Except PyErr (List Nat))
    (m : StructMember) (slot : Option Value) : Except PyErr (List Nat) :=
  if m.vector then do
    let xs ← asPyList slot
    match m.vectorSize with
    | none => do
      let fieldLength := xs.length
      let pre ← serializePyVarint fieldLength
      let body ← if m.type.isBoolean then boolVecData xs fieldLength
                 else serVecGo serFn m.type xs 0 fieldLength
      pure (pre ++ body)
    | some n =>
      if m.type.isBoolean then boolVecData xs n
      else serVecGo serFn m.type xs 0 n
  else
    match slot with
    | none => .error (.typeError "absent scalar member")
    | some v =>
      match m.type with
      | .structT _ => do
        let child ← serChild serFn v
        let pre ← serializePyVarint child.length
        pure (pre ++ child)
      | .enumT w _ => do
        let n ← intOf v
        toBytesBE w n
      | .stringT =>
        match v with
        | .vStr s => do
          let pre ← serializePyVarint s.length
          pure (pre ++ s)
        | _ => .error (.typeError "object has no len")
      | .boolean => .ok [if truthy v then 1 else 0]
      | .intPrim w _ => do
        let n ← intOf v
        toBytesBE w n

/-- The member loop of the generated `serialize`: test presence, set the
member's bit in the bitmap region of the buffer, append the payload. -/
def serLoopGo (serFn : StructDef → List (Option Value) → Except PyErr (List Nat))
    (bitfieldIndex : Nat) :
    List (StructMember × Option Value) → List Nat → Except PyErr (List Nat)
  | [], buf => .ok buf
  | (m, s) :: rest, buf => do
    let p ← memberPresent m s
    if p then do
      let buf' := listOrByte buf (bitfieldIndex + m.fieldId / 8) (msbMask m.fieldId)
      let payload ← serMemberPayloadGo serFn m s
      serLoopGo serFn bitfieldIndex rest (buf' ++ payload)
    else
      serLoopGo serFn bitfieldIndex rest buf

/-- The body of the generated `serialize` method, with the recursive call for
nested instances abstracted as `serFn`: table-id prefix, zeroed presence
bitmap, then the member loop. -/
def serInstBody (serFn : StructDef → List (Option Value) → Except PyErr (List Nat))
    (d : StructDef) (slots : List (Option Value)) : Except PyErr (List Nat) :=
  let idb := tableIdBytes d.tableId
  serLoopGo serFn idb.length (d.members.zip slots)
    (idb ++ List.replicate (bitfieldByteWidth d.members.length) 0)

/-- The generated `serialize` with a recursion-depth fuel (running out of
fuel is Python's `RecursionError`). -/
def serializeRec : Nat → StructDef → List (Option Value) → Except PyErr (List Nat)
  | 0, _, _ => .error .recursionError
  | f+1, d, slots => serInstBody (serializeRec f) d slots

/-- `v.serialize()` on an instance value. -/
def pySerialize (fuel : Nat) : Value → Except PyErr (List Nat)
  | .vInst d slots => serializeRec fuel d slots
  | _ => .error (.typeError "object has no attribute serialize")

/-- The generated classmethod `deserialize`: reads the leading varint,
raises `ValueError` on a table-id mismatch, then builds `cls()` and returns
it (the per-member deserialization hook
`StructMember.generate_python_deserialize` emits no code). -/
def clsDeserialize (d : StructDef) (buf : List Nat) : Except PyErr Value := do
  let r ← deserializePyVarint buf 0
  if r.1 ≠ d.tableId then .error (.valueError "Invalid table ID")
  else pyNew d

/-- The struct/table declarations of a schema, in insertion order
(`Schema.structs`). -/
def structsOf : List Defn → List StructDef
  | [] => []
  | .enumD _ :: rest => structsOf rest
  | .structD d :: rest => d :: structsOf rest

/-- Field-id assignment within one declaration (`Schema.resolve_types`):
ids follow declaration order from 0. -/
def assignFieldIds (ms : List StructMember) : List StructMember :=
  ms.mapIdx (fun i m =>
    match m with
    | .mk n t df vec vsz _ => .mk n t df vec vsz i)

/-- Table-id assignment (`Schema.resolve_types`): walk declarations in source
order, giving each struct/table the next id from a counter starting at 0 and
numbering its members' field ids. -/
def resolveIdsGo : Nat → List Defn → List Defn
  | _, [] => []
  | next, .enumD n :: rest => .enumD n :: resolveIdsGo next rest
  | next, .structD (.mk nm _ ms) :: rest =>
    .structD (.mk nm next (assignFieldIds ms)) :: resolveIdsGo (next+1) rest

/-- The resolver's id-assignment pass over a whole schema. -/
def resolveIds (defs : List Defn) : List Defn :=
  resolveIdsGo 0 defs

/-- The `TableType_e` enum emitted by `Schema.generate_c_header`, as a list of
(constant name, numeric value) pairs: `TABLE_TYPE_INVALID = 0`, then one
constant per struct/table whose value the generator writes as that
declaration's `table_id`. -/
def tableTypeEntries (defs : List Defn) : List (String × Nat) :=
  ("TABLE_TYPE_INVALID", 0) :: (structsOf defs).map (fun d => ("TABLE_TYPE_" ++ d.name, d.tableId))

/-- The generated `TABLE_ID_MAP` lookup: the first declaration with the given
table id (ids are unique after resolution). -/
def findTableClass (defs : List Defn) (tid : Nat) : Option StructDef :=
  (structsOf defs).find? (fun d => d.tableId == tid)

/-- The generated module-level `deserialize`: decode the leading varint, look
the id up in `TABLE_ID_MAP` (a missing key becomes
`ValueError('Unrecognized Table ID')`), and dispatch to that class's
`deserialize` on the whole buffer. -/
def moduleDeserialize (defs : List Defn) (buf : List Nat) : Except PyErr Value := do
  let r ← deserializePyVarint buf 0
  match findTableClass defs r.1 with
  | none => .error (.valueError "Unrecognized Table ID")
  | some cls => clsDeserialize cls buf

/-- The cumulative effect of the serialize loop's bit-patching statements on
the bitmap region: one flag per member, patching byte `field_id / 8` with
mask `1 << (7 - field_id & 7)` for each present member. -/
def patchBitmap : List Nat → List (StructMember × Option Value) → List Bool → List Nat
  | bm, [], _ => bm
  | bm, _ :: _, [] => bm
  | bm, (m, _) :: rest, fl :: fls =>
    patchBitmap (if fl then listOrByte bm (m.fieldId / 8) (msbMask m.fieldId) else bm) rest fls

/-! Concrete scenario schemas from the spec (section 8), already in resolved
form (table ids and field ids assigned, type references replaced). -/

/-- Scenario A enum `Color : uint8 { RED = 1, GREEN, BLUE }` after resolution:
underlying width 1 byte, value set {1, 2, 3}. -/
def colorT : MemberType := .enumT 1 [1, 2, 3]

/-- Scenario A `table Pixel { r: uint8; g: uint8; b: uint8; c: Color; }` with
table id 0. -/
def pixelDef : StructDef :=
  .mk "Pixel" 0
    [.mk "r" (.intPrim 1 false) none false none 0,
     .mk "g" (.intPrim 1 false) none false none 1,
     .mk "b" (.intPrim 1 false) none false none 2,
     .mk "c" colorT none false none 3]

/-- Scenario E `table Inner { x: uint16; }` with table id 0. -/
def innerDef : StructDef :=
  .mk "Inner" 0 [.mk "x" (.intPrim 2 false) none false none 0]

/-- Scenario E `table Outer { i: Inner; }` with table id 1. -/
def outerDef : StructDef :=
  .mk "Outer" 1 [.mk "i" (.structT innerDef) none false none 0]

/-- Scenario C member `name: string = "anon"` (default is the byte string of
"anon"). -/
def nameM : StructMember :=
  .mk "name" .stringT (some (.dStr [97, 110, 111, 110])) false none 0

/-- Scenario C `table S { name: string = "anon"; }` with table id 0. -/
def sDef : StructDef := .mk "S" 0 [nameM]

/-- Scenario-B-like declaration with no members, placed at table id 0xFD (the
id a 254th struct/table declaration receives from the resolver). -/
def emptyFDDef : StructDef := .mk "Empty253" 0xFD []

/-- A fixed-size-3 vector member `xs: [uint32:3]`. -/
def fix3M : StructMember := .mk "xs" (.intPrim 4 false) none true (some 3) 0

/-- A fixed-size-0 vector member `xs: [uint8:0]` (the DSL grammar accepts any
number literal as a fixed vector size). -/
def zeroVecM : StructMember := .mk "xs" (.intPrim 1 false) none true (some 0) 0

/-- An unbounded scalar-vector member with a default: `xs: [uint8] = 7;`
(the validator permits defaults on integer-primitive members, vector or not). -/
def vecDefM : StructMember := .mk "xs" (.intPrim 1 false) (some (.dInt 7)) true none 0

/-- Table holding `vecDefM`. -/
def vDef : StructDef := .mk "V" 0 [vecDefM]

/-- Scenario D table `Bag { bits: [boolean]; }`. -/
def bagDef : StructDef := .mk "Bag" 0 [.mk "bits" .boolean none true none 0]

/-! Small rewriting helpers for the `Except` monad. -/

theorem okBind {α β : Type} (a : α) (f : α → Except PyErr β) :
    (Except.ok a >>= f) = f a := rfl

theorem errBind {α β : Type} (e : PyErr) (f : α → Except PyErr β) :
    ((Except.error e : Except PyErr α) >>= f) = .error e := rfl

/-- Claim C1 (code bug).  Round-trip fails: the per-member deserialization
hook `StructMember.generate_python_deserialize` emits no code, so the
generated classmethod `deserialize` reads only the leading table id and
returns a fresh all-unset instance.  The scenario-A Pixel value — built
through the generated constructor, whose assignments go through the property
setters — serializes to `00 F0 01 02 03 02`, but deserializing that buffer
yields the all-unset Pixel, which is not the original value (`test.py`
expects equality after this round trip). -/
theorem C1_roundtrip_drops_all_members :
    pyInit pixelDef [some (.vInt 1), some (.vInt 2), some (.vInt 3), some (.vInt 2)]
      = .ok (.vInst pixelDef [some (.vInt 1), some (.vInt 2), some (.vInt 3), some (.vEnum 2)]) ∧
    pySerialize 3 (.vInst pixelDef [some (.vInt 1), some (.vInt 2), some (.vInt 3), some (.vEnum 2)])
      = .ok [0x00, 0xF0, 0x01, 0x02, 0x03, 0x02] ∧
    clsDeserialize pixelDef [0x00, 0xF0, 0x01, 0x02, 0x03, 0x02]
      = .ok (.vInst pixelDef [none, none, none, none]) ∧
    Value.vInst pixelDef [none, none, none, none]
      ≠ Value.vInst pixelDef [some (.vInt 1), some (.vInt 2), some (.vInt 3), some (.vEnum 2)] := by
  refine ⟨rfl, rfl, rfl, fun h => ?_⟩
  simp at h

/-- Claim C2 (code bug).  The generated `uint16`/`uint32`/`uint64` helpers
call `to_bytes(..., 'big')`, so every multi-byte integer payload is emitted
big-endian, contrary to the spec's little-endian wire format.  For the
scenario-E value `Outer(i=Inner(x=0x0102))` the code produces
`01 80 04 00 80 01 02` (inner `x` as `01 02`), not the claimed
`01 80 04 00 80 02 01`. -/
theorem C2_little_endian_violated :
    serializeRec 3 outerDef [some (.vInst innerDef [some (.vInt 0x0102)])]
      = .ok [0x01, 0x80, 0x04, 0x00, 0x80, 0x01, 0x02] ∧
    ([0x01, 0x80, 0x04, 0x00, 0x80, 0x01, 0x02] : List Nat)
      ≠ [0x01, 0x80, 0x04, 0x00, 0x80, 0x02, 0x01] := by
  exact ⟨rfl, by decide⟩

/-- Claim C4 (code bug).  The varint encoder inlined by
`Schema.serialize_py_varint` picks the claimed widths and markers, but (a) the
2- and 4-byte payloads go through the big-endian `uint16`/`uint32` helpers
rather than little-endian, (b) the `> 0xFFFFFFFF` branch emits
`buf.extend(uint64(length))` where the name `length` is undefined at every
call site, raising `NameError` instead of producing `0xFF` plus 8 bytes, and
(c) the decoder reads its multi-byte payloads big-endian as well, so on the
spec's little-endian encoding of 0x0102 (`FD 02 01`) it returns 0x0201. -/
theorem C4_varint_codec_diverges :
    serializePyVarint 0xFC = .ok [0xFC] ∧
    serializePyVarint 0x0102 = .ok [0xFD, 0x01, 0x02] ∧
    ([0xFD, 0x01, 0x02] : List Nat) ≠ [0xFD, 0x02, 0x01] ∧
    serializePyVarint 0x100000000 = .error (.nameError "length is not defined") ∧
    deserializePyVarint [0xFD, 0x02, 0x01] 0 = .ok (0x0201, 3) ∧
    (0x0201 : Nat) ≠ 0x0102 := by
  exact ⟨rfl, rfl, by decide, rfl, rfl, by decide⟩

/-- Claim C5 (code bug).  For table ids up to 0xFC the generated serialize
prefixes the single byte `uint8(table_id)`, which coincides with the varint
form; but for ids at or above 0xFD the generator emits
`b'0xFD' + uint16(table_id)` — the four ASCII characters `0`, `x`, `F`, `D`
(bytes 48 120 70 68) followed by a big-endian 2-byte value — instead of the
section-4.5 varint `FD` + little-endian value.  Serializing a zero-member
table with id 0xFD therefore starts with `30 78 46 44 00 FD`, not
`FD FD 00`. -/
theorem C5_tableid_prefix_not_varint :
    tableIdBytes 0xFC = [0xFC] ∧
    serializeRec 3 emptyFDDef [] = .ok [48, 120, 70, 68, 0x00, 0xFD] ∧
    tableIdBytes 0xFD = [48, 120, 70, 68, 0x00, 0xFD] ∧
    ([48, 120, 70, 68, 0x00, 0xFD] : List Nat) ≠ [0xFD, 0xFD, 0x00] := by
  exact ⟨rfl, rfl, rfl, by decide⟩

/-- Claim C7 (counterexample).  In this embedding an `Except.error` result is
a raised Python exception and `.ok` a normal return.  All three cited error
paths of the generated dynamic code raise `ValueError` instead of returning a
boolean/null-style code: the classmethod `deserialize` on a table-id
mismatch, the module-level `deserialize` on an unrecognized table id, and the
fixed-size-vector setter on a length mismatch. -/
theorem C7_counterexample_errors_raise :
    clsDeserialize pixelDef [5] = .error (.valueError "Invalid table ID") ∧
    moduleDeserialize [.structD pixelDef] [99] = .error (.valueError "Unrecognized Table ID") ∧
    pySet fix3M (some (.vList [.vInt 1])) = .error (.valueError "must be a list of fixed size") := by
  exact ⟨rfl, rfl, rfl⟩

/-- Claim C7 (amended, proved).  Runtime errors in the generated dynamic code
are reported by raising `ValueError`: classmethod `deserialize` raises on any
table-id mismatch, the module-level `deserialize` raises on any table id
absent from `TABLE_ID_MAP`, and the fixed-size-vector setter (for a declared
nonzero size) raises on any length mismatch. -/
theorem C7_amended_raise_valueerror
    (d : StructDef) (buf : List Nat) (tid i : Nat) (defs : List Defn)
    (m : StructMember) (v : Value) (n l : Nat)
    (hdec : deserializePyVarint buf 0 = .ok (tid, i)) (hne : tid ≠ d.tableId)
    (hfind : findTableClass defs tid = none)
    (hv : m.vector = true) (hn : m.vectorSize = some n) (hn0 : n ≠ 0)
    (hl : pyLen v = .ok l) (hlen : l ≠ n) :
    clsDeserialize d buf = .error (.valueError "Invalid table ID") ∧
    moduleDeserialize defs buf = .error (.valueError "Unrecognized Table ID") ∧
    pySet m (some v) = .error (.valueError "must be a list of fixed size") := by
  refine ⟨?_, ?_, ?_⟩
  · unfold clsDeserialize
    rw [hdec, okBind]
    simp [hne]
  · unfold moduleDeserialize
    rw [hdec, okBind]
    simp [hfind]
  · unfold pySet
    simp [hv, hn, truthyVecSize, hn0, hl, hlen, okBind]

/-- Witness for `C7_amended_raise_valueerror` at concrete inputs. -/
theorem C7_amended_raise_valueerror_witness :
    deserializePyVarint [5] 0 = .ok (5, 1) ∧
    clsDeserialize pixelDef [5] = .error (.valueError "Invalid table ID") ∧
    moduleDeserialize [Defn.enumD "Color"] [5] = .error (.valueError "Unrecognized Table ID") ∧
    pySet fix3M (some (.vList [.vInt 9])) = .error (.valueError "must be a list of fixed size") := by
  have h := C7_amended_raise_valueerror pixelDef [5] 5 1 [Defn.enumD "Color"]
    fix3M (.vList [.vInt 9]) 3 1 rfl (by decide) rfl rfl rfl (by decide) rfl (by decide)
  exact ⟨rfl, h.1, h.2.1, h.2.2⟩

/-- Claim C9 (counterexample).  The emitter guards the length check with the
generation-time truthiness test `if member.vector and member.vector_size:`,
so for a fixed-size-0 vector no check is emitted at all and the setter
accepts a value of length 1. -/
theorem C9_counterexample_size_zero_accepts :
    zeroVecM.vectorSize = some 0 ∧
    pySet zeroVecM (some (.vList [.vInt 1])) = .ok (some (.vList [.vInt 1])) := by
  exact ⟨rfl, rfl⟩

/-- Claim C9 (amended, proved).  For a fixed-size vector of declared size
`n ≥ 1`, the generated setter raises `ValueError` on every non-`None` value
whose length differs from `n` and stores values of length exactly `n`
unchanged; for `n = 0` the check is not emitted. -/
theorem C9_amended_fixed_vector_check (m : StructMember) (n : Nat) (v : Value) (l : Nat)
    (hv : m.vector = true) (hn : m.vectorSize = some n) (hn0 : 0 < n)
    (hl : pyLen v = .ok l) :
    (l ≠ n → pySet m (some v) = .error (.valueError "must be a list of fixed size")) ∧
    (l = n → pySet m (some v) = .ok (some v)) := by
  constructor <;> intro h <;> unfold pySet <;>
    simp [hv, hn, truthyVecSize, Nat.pos_iff_ne_zero.mp hn0, hl, h, okBind, errBind, pure, Except.pure]

/-- Witness for `C9_amended_fixed_vector_check` at concrete inputs. -/
theorem C9_amended_fixed_vector_check_witness :
    fix3M.vector = true ∧ fix3M.vectorSize = some 3 ∧ (0 : Nat) < 3 ∧
    pyLen (.vList [.vInt 1]) = .ok 1 ∧
    pySet fix3M (some (.vList [.vInt 1])) = .error (.valueError "must be a list of fixed size") ∧
    pySet fix3M (some (.vList [.vInt 1, .vInt 2, .vInt 3]))
      = .ok (some (.vList [.vInt 1, .vInt 2, .vInt 3])) := by
  refine ⟨rfl, rfl, by decide, rfl, ?_, ?_⟩
  · exact (C9_amended_fixed_vector_check fix3M 3 (.vList [.vInt 1]) 1
      rfl rfl (by decide) rfl).1 (by decide)
  · exact (C9_amended_fixed_vector_check fix3M 3 (.vList [.vInt 1, .vInt 2, .vInt 3]) 3
      rfl rfl (by decide) rfl).2 rfl

/-- Table ids assigned by the resolver pass are consecutive from the counter
start, in order of appearance of struct/table declarations. -/
theorem structsOf_resolveIdsGo (k : Nat) (defs : List Defn) :
    ∀ i d, (structsOf (resolveIdsGo k defs))[i]? = some d → d.tableId = k + i := by
  induction defs generalizing k with
  | nil => intro i d h; simp [resolveIdsGo, structsOf] at h
  | cons hd tl ih =>
    intro i d h
    match hd with
    | .enumD n =>
      rw [show resolveIdsGo k (.enumD n :: tl) = .enumD n :: resolveIdsGo k tl from rfl,
        show structsOf (.enumD n :: resolveIdsGo k tl) = structsOf (resolveIdsGo k tl) from rfl] at h
      exact ih k i d h
    | .structD (.mk nm t ms) =>
      rw [show resolveIdsGo k (.structD (.mk nm t ms) :: tl)
            = .structD (.mk nm k (assignFieldIds ms)) :: resolveIdsGo (k+1) tl from rfl,
        show structsOf (.structD (.mk nm k (assignFieldIds ms)) :: resolveIdsGo (k+1) tl)
            = .mk nm k (assignFieldIds ms) :: structsOf (resolveIdsGo (k+1) tl) from rfl] at h
      cases i with
      | zero =>
        simp at h
        rw [← h]
        simp [StructDef.tableId]
      | succ j =>
        simp at h
        have := ih (k+1) j d h
        omega

/-- Claim C8 (counterexample).  `Schema.generate_c_header` writes
`TABLE_TYPE_<Name> = <table_id>` with no `+1`: for a schema whose sole
declaration is Pixel (table id 0), the emitted enum is
`TABLE_TYPE_INVALID = 0, TABLE_TYPE_Pixel = 0`, and no constant with value
`table_id + 1` is present. -/
theorem C8_counterexample_no_plus_one :
    tableTypeEntries [.structD pixelDef]
      = [("TABLE_TYPE_INVALID", 0), ("TABLE_TYPE_Pixel", 0)] ∧
    ("TABLE_TYPE_Pixel", pixelDef.tableId + 1) ∉ tableTypeEntries [.structD pixelDef] := by
  exact ⟨rfl, by decide⟩

/-- Claim C8 (amended, proved).  The generated `TableType` enum contains
`TABLE_TYPE_INVALID = 0` and, per struct/table, `TABLE_TYPE_<Name>` with
value exactly that declaration's `table_id` (no `+1`); since the resolver
assigns ids from 0, the first declaration's constant always collides with
`TABLE_TYPE_INVALID`. -/
theorem C8_amended_tabletype_values (defs : List Defn) :
    tableTypeEntries (resolveIds defs)
      = ("TABLE_TYPE_INVALID", 0)
        :: (structsOf (resolveIds defs)).map (fun d => ("TABLE_TYPE_" ++ d.name, d.tableId)) ∧
    (∀ (i : Nat) (d : StructDef), (structsOf (resolveIds defs))[i]? = some d → d.tableId = i) ∧
    (∀ (d : StructDef), (structsOf (resolveIds defs))[0]? = some d →
      ("TABLE_TYPE_" ++ d.name, 0) ∈ tableTypeEntries (resolveIds defs)) := by
  refine ⟨rfl, ?_, ?_⟩
  · intro i d h
    have h' : (structsOf (resolveIdsGo 0 defs))[i]? = some d := h
    simpa using structsOf_resolveIdsGo 0 defs i d h'
  · intro d h
    have h' : (structsOf (resolveIdsGo 0 defs))[0]? = some d := h
    have h0 : d.tableId = 0 := by simpa using structsOf_resolveIdsGo 0 defs 0 d h'
    have hm : d ∈ structsOf (resolveIds defs) := List.getElem?_mem h
    have hmem : ("TABLE_TYPE_" ++ d.name, d.tableId)
        ∈ (structsOf (resolveIds defs)).map (fun d => ("TABLE_TYPE_" ++ d.name, d.tableId)) :=
      List.mem_map_of_mem _ hm
    rw [h0] at hmem
    exact List.mem_cons_of_mem _ hmem

/-- Witness for `C8_amended_tabletype_values` at a concrete schema. -/
theorem C8_amended_tabletype_values_witness :
    (structsOf (resolveIds [Defn.enumD "Color", Defn.structD pixelDef]))[0]?
      = some (StructDef.mk "Pixel" 0 (assignFieldIds pixelDef.members)) ∧
    ("TABLE_TYPE_Pixel", 0)
      ∈ tableTypeEntries (resolveIds [Defn.enumD "Color", Defn.structD pixelDef]) := by
  refine ⟨rfl, ?_⟩
  exact (C8_amended_tabletype_values [Defn.enumD "Color", Defn.structD pixelDef]).2.2 _ rfl

/-- Claim C6 (counterexample).  An unbounded scalar vector may carry a
default (`xs: [uint8] = 7;` passes the validator), but the generated
constructor normalizes a never-set unbounded vector to `[]`, which is not
`None`, so the getter returns `[]` rather than the declared default 7. -/
theorem C6_counterexample_vector_default :
    pyNew vDef = .ok (.vInst vDef [some (.vList [])]) ∧
    vecDefM.defaultVal = some (.dInt 7) ∧
    coercedDefault vecDefM.type (.dInt 7) = .vInt 7 ∧
    pyGet vecDefM (some (.vList [])) = some (.vList []) ∧
    pyGet vecDefM (some (.vList [])) ≠ some (.vInt 7) := by
  refine ⟨rfl, rfl, rfl, rfl, fun h => ?_⟩
  rw [show pyGet vecDefM (some (.vList [])) = some (.vList []) from rfl] at h
  exact Value.noConfusion (Option.some.inj h)

/-- Claim C6 (amended, proved).  For a member with default `d` that is *not*
an unbounded vector, an instance where the member was never set or was set to
`None` has slot `None`: the setter maps `None` to `None`, the getter then
returns the (boolean/enum-coerced) default, the member is not present for
serialization, and the serialize loop neither sets its bit nor emits a
payload for it.  In particular scenario C: serializing an unset `S()` gives
`00 00` while `get_name` returns "anon".  (For unbounded-vector members the
constructor normalizes unset to `[]` and the getter returns the stored
list.) -/
theorem C6_amended_default_transparency (m : StructMember) (dv : DefaultVal)
    (hnv : (m.vector && m.vectorSize.isNone) = false)
    (hd : m.defaultVal = some dv) :
    pySet m none = .ok none ∧
    pyGet m none = some (coercedDefault m.type dv) ∧
    memberPresent m none = .ok false ∧
    (∀ serFn bi rest buf, serLoopGo serFn bi ((m, none) :: rest) buf
        = serLoopGo serFn bi rest buf) ∧
    serializeRec 3 sDef [none] = .ok [0x00, 0x00] ∧
    pyGet nameM none = some (.vStr [97, 110, 111, 110]) := by
  have hpres : memberPresent m none = .ok false := by
    unfold memberPresent
    rw [hnv]
    rfl
  refine ⟨?_, ?_, hpres, ?_, rfl, rfl⟩
  · unfold pySet
    cases hc : (m.vector && truthyVecSize m.vectorSize) <;>
      cases he : (!m.vector && m.type.isEnum) <;> simp [hc, he, okBind, pure, Except.pure]
  · unfold pyGet
    rw [hd]
  · intro serFn bi rest buf
    rw [show serLoopGo serFn bi ((m, none) :: rest) buf = (do
        let p ← memberPresent m none
        if p then do
          let buf' := listOrByte buf (bi + m.fieldId / 8) (msbMask m.fieldId)
          let payload ← serMemberPayloadGo serFn m none
          serLoopGo serFn bi rest (buf' ++ payload)
        else serLoopGo serFn bi rest buf) from rfl,
      hpres, okBind]
    simp

/-- Witness for `C6_amended_default_transparency` at the scenario-C member. -/
theorem C6_amended_default_transparency_witness :
    (nameM.vector && nameM.vectorSize.isNone) = false ∧
    nameM.defaultVal = some (.dStr [97, 110, 111, 110]) ∧
    pySet nameM none = .ok none ∧
    pyGet nameM none = some (coercedDefault nameM.type (.dStr [97, 110, 111, 110])) ∧
    memberPresent nameM none = .ok false ∧
    serializeRec 3 sDef [none] = .ok [0x00, 0x00] := by
  have h := C6_amended_default_transparency nameM (.dStr [97, 110, 111, 110]) rfl rfl
  exact ⟨rfl, rfl, h.1, h.2.1, h.2.2.1, h.2.2.2.2.1⟩

/-- Initializing through the constructor gives the same instance whether an
unbounded-vector argument is omitted (`None`) or passed as `[]`: pointwise
the per-member initializers agree, so the assignment sequence of `__init__`
agrees. -/
theorem initLoop_set_empty (ms : List StructMember) (args : List (Option Value)) (i : Nat)
    (m : StructMember) (hm : ms[i]? = some m)
    (hv : m.vector = true) (hs : m.vectorSize = none)
    (ha : args[i]? = some none) :
    initLoop (ms.zip (args.set i (some (.vList []))))
      = initLoop (ms.zip args) := by
  induction ms generalizing args i with
  | nil => simp at hm
  | cons hd tl ih =>
    cases args with
    | nil => simp at ha
    | cons a as =>
      cases i with
      | zero =>
        have hm0 : hd = m := by simpa using hm
        have ha0 : a = none := by simpa using ha
        subst hm0
        subst ha0
        have hsame : pyInitMember hd (some (.vList [])) = pyInitMember hd none := by
          unfold pyInitMember
          rw [hv, hs]
          rfl
        simp [initLoop, hsame]
      | succ j =>
        have hm1 : tl[j]? = some m := by simpa using hm
        have ha1 : as[j]? = some none := by simpa using ha
        have hrec := ih as j hm1 ha1
        simp only [List.set_cons_succ, List.zip_cons_cons, initLoop]
        rw [show List.zipWith Prod.mk tl (as.set j (some (Value.vList [])))
              = tl.zip (as.set j (some (Value.vList []))) from rfl]
        rw [show List.zipWith Prod.mk tl as = tl.zip as from rfl]
        rw [hrec]

/-- Claim C10 (proved).  For an unbounded-vector member, leaving it unset and
setting it to `[]` are indistinguishable: both initializer paths store
`some []`; constructing with the argument omitted equals constructing with
`[]` passed (hence identical `serialize` bytes through any fuel); the member
is not present for serialization whenever its stored list is empty, the
serialize loop neither sets its bit nor emits a payload, and the generated
`__repr__` omits the member. -/
theorem C10_unset_equals_empty (m : StructMember) (d : StructDef)
    (args : List (Option Value)) (i : Nat)
    (hv : m.vector = true) (hs : m.vectorSize = none)
    (hm : d.members[i]? = some m) (ha : args[i]? = some none) :
    pyInitMember m none = .ok (some (.vList [])) ∧
    pyInitMember m (some (.vList [])) = .ok (some (.vList [])) ∧
    pyInit d (args.set i (some (.vList []))) = pyInit d args ∧
    (∀ fuel, (pyInit d (args.set i (some (.vList []))) >>= pySerialize fuel)
        = (pyInit d args >>= pySerialize fuel)) ∧
    memberPresent m (some (.vList [])) = .ok false ∧
    (∀ serFn bi rest buf, serLoopGo serFn bi ((m, some (.vList [])) :: rest) buf
        = serLoopGo serFn bi rest buf) ∧
    reprShown m (some (.vList [])) = .ok false := by
  have hset : pySet m (some (.vList [])) = .ok (some (.vList [])) := by
    unfold pySet
    rw [hv, hs]
    rfl
  have hinit : pyInitMember m none = .ok (some (.vList [])) := by
    unfold pyInitMember
    rw [hv, hs]
    simpa using hset
  have hinit2 : pyInitMember m (some (.vList [])) = .ok (some (.vList [])) := by
    unfold pyInitMember
    rw [hv, hs]
    simpa using hset
  have hmap := initLoop_set_empty d.members args i m hm hv hs ha
  have hpi : pyInit d (args.set i (some (.vList []))) = pyInit d args := by
    unfold pyInit
    rw [hmap]
  have hpres : memberPresent m (some (.vList [])) = .ok false := by
    unfold memberPresent
    rw [hv, hs]
    rfl
  refine ⟨hinit, hinit2, hpi, fun fuel => by rw [hpi], hpres, ?_, ?_⟩
  · intro serFn bi rest buf
    rw [show serLoopGo serFn bi ((m, some (.vList [])) :: rest) buf = (do
        let p ← memberPresent m (some (.vList []))
        if p then do
          let buf' := listOrByte buf (bi + m.fieldId / 8) (msbMask m.fieldId)
          let payload ← serMemberPayloadGo serFn m (some (.vList []))
          serLoopGo serFn bi rest (buf' ++ payload)
        else serLoopGo serFn bi rest buf) from rfl,
      hpres, okBind]
    simp
  · unfold reprShown
    have hg : pyGet m (some (.vList [])) = some (.vList []) := by
      unfold pyGet
      cases m.defaultVal <;> rfl
    simp [hv, hs, hg, pyLenOpt, pyLen, okBind, pure, Except.pure]

/-- Witness for `C10_unset_equals_empty` at the scenario-D Bag declaration. -/
theorem C10_unset_equals_empty_witness :
    (StructMember.mk "bits" .boolean none true none 0).vector = true ∧
    (StructMember.mk "bits" .boolean none true none 0).vectorSize = none ∧
    bagDef.members[0]? = some (.mk "bits" .boolean none true none 0) ∧
    ([none] : List (Option Value))[0]? = (some none : Option (Option Value)) ∧
    pyInit bagDef (([none] : List (Option Value)).set 0 (some (.vList [])))
      = pyInit bagDef [none] ∧
    memberPresent (.mk "bits" .boolean none true none 0) (some (.vList [])) = .ok false ∧
    reprShown (.mk "bits" .boolean none true none 0) (some (.vList [])) = .ok false := by
  have h := C10_unset_equals_empty (.mk "bits" .boolean none true none 0) bagDef
    [none] 0 rfl rfl rfl rfl
  exact ⟨rfl, rfl, rfl, rfl, h.2.2.1, h.2.2.2.2.1, h.2.2.2.2.2.2⟩

/-! Infrastructure for the presence-bitmap layout theorem (claim C3). -/

/-- The Python expression `1 << (7 - field_id & 7)` equals the power of two
at bit `7 - field_id % 8`. -/
theorem msbMask_eq (f : Nat) : msbMask f = 2 ^ (7 - f % 8) := by
  unfold msbMask
  rw [show (((7 - (f : Int)) % 8).toNat) = 7 - f % 8 from by omega,
    Nat.shiftLeft_eq, one_mul]

/-- Python `field_id & 7` is `field_id % 8`. -/
theorem land_seven (f : Nat) : f &&& 7 = f % 8 :=
  Nat.and_pow_two_sub_one_eq_mod f 3

/-- The generated bitmap byte width `(N - 1) // 8 + 1` (Python floor
division) is `ceil(N/8)`. -/
theorem bitfieldByteWidth_eq (n : Nat) : bitfieldByteWidth n = (n + 7) / 8 := by
  cases n with
  | zero => decide
  | succ k =>
    unfold bitfieldByteWidth
    rw [show ((k + 1 : Nat) : Int) - 1 = (k : Int) from by push_cast; ring,
      Int.fdiv_eq_ediv _ (by norm_num)]
    omega

theorem listOrByte_length (l : List Nat) (i mask : Nat) :
    (listOrByte l i mask).length = l.length := by
  simp [listOrByte]

/-- A bit-patch whose index falls inside the middle section of a three-part
buffer touches only that section. -/
theorem listOrByte_append (pre bm acc : List Nat) (k mask : Nat) (hk : k < bm.length) :
    listOrByte (pre ++ (bm ++ acc)) (pre.length + k) mask
      = pre ++ (listOrByte bm k mask ++ acc) := by
  unfold listOrByte
  have hget : (pre ++ (bm ++ acc)).getD (pre.length + k) 0 = bm.getD k 0 := by
    rw [List.getD_eq_getElem?_getD, List.getD_eq_getElem?_getD,
      List.getElem?_append_right (by omega : pre.length ≤ pre.length + k)]
    simp [List.getElem?_append, hk]
  rw [hget, List.set_append_right _ _ (by omega : pre.length ≤ pre.length + k)]
  congr 1
  rw [show pre.length + k - pre.length = k from by omega]
  exact List.set_append_left _ _ hk

theorem patchBitmap_length :
    ∀ (ms : List (StructMember × Option Value)) (flags : List Bool) (bm : List Nat),
      (patchBitmap bm ms flags).length = bm.length := by
  intro ms
  induction ms with
  | nil => intro flags bm; rfl
  | cons hd tl ih =>
    intro flags bm
    obtain ⟨m, s⟩ := hd
    cases flags with
    | nil => rfl
    | cons fl fls =>
      rw [show patchBitmap bm ((m, s) :: tl) (fl :: fls)
          = patchBitmap (if fl then listOrByte bm (m.fieldId / 8) (msbMask m.fieldId) else bm)
              tl fls from rfl,
        ih fls _]
      cases fl <;> simp [listOrByte_length]

/-- A successful run of the generated serialize member loop splits the output
buffer into the untouched prefix, the patched bitmap region, and the
concatenation of the present members' payload chunks in member order. -/
theorem serLoopGo_split (serFn : StructDef → List (Option Value) → Except PyErr (List Nat)) :
    ∀ (ms : List (StructMember × Option Value)) (pre bm acc bs : List Nat),
    (∀ p ∈ ms, p.1.fieldId / 8 < bm.length) →
    serLoopGo serFn pre.length ms (pre ++ (bm ++ acc)) = .ok bs →
    ∃ (flags : List Bool) (chunks : List (List Nat)),
      flags.length = ms.length ∧ chunks.length = ms.length ∧
      bs = pre ++ (patchBitmap bm ms flags ++ (acc ++ chunks.flatten)) ∧
      (∀ (j : Nat) (m : StructMember) (s : Option Value), ms[j]? = some (m, s) →
        memberPresent m s = .ok (flags.getD j false) ∧
        (flags.getD j false = true → serMemberPayloadGo serFn m s = .ok (chunks.getD j [])) ∧
        (flags.getD j false = false → chunks.getD j [] = [])) := by
  intro ms
  induction ms with
  | nil =>
    intro pre bm acc bs hin hok
    refine ⟨[], [], rfl, rfl, ?_, ?_⟩
    · rw [show serLoopGo serFn pre.length [] (pre ++ (bm ++ acc))
          = .ok (pre ++ (bm ++ acc)) from rfl] at hok
      injection hok with h
      rw [← h]
      simp [patchBitmap]
    · intro j m s hj
      simp at hj
  | cons hd tl ih =>
    intro pre bm acc bs hin hok
    obtain ⟨m, s⟩ := hd
    have hin0 : m.fieldId / 8 < bm.length := hin (m, s) (List.mem_cons_self _ _)
    have hin' : ∀ p ∈ tl, p.1.fieldId / 8 < bm.length :=
      fun p hp => hin p (List.mem_cons_of_mem _ hp)
    rw [show serLoopGo serFn pre.length ((m, s) :: tl) (pre ++ (bm ++ acc)) = (do
        let p ← memberPresent m s
        if p then do
          let buf' := listOrByte (pre ++ (bm ++ acc))
            (pre.length + m.fieldId / 8) (msbMask m.fieldId)
          let payload ← serMemberPayloadGo serFn m s
          serLoopGo serFn pre.length tl (buf' ++ payload)
        else serLoopGo serFn pre.length tl (pre ++ (bm ++ acc))) from rfl] at hok
    cases hp : memberPresent m s with
    | error e =>
      rw [hp, errBind] at hok
      exact absurd hok (by simp)
    | ok p =>
      rw [hp, okBind] at hok
      cases p with
      | false =>
        rw [if_neg (by simp)] at hok
        obtain ⟨flags, chunks, hf, hc, hbs, hidx⟩ := ih pre bm acc bs hin' hok
        refine ⟨false :: flags, [] :: chunks, by simp [hf], by simp [hc], ?_, ?_⟩
        · rw [hbs]
          rfl
        · intro j m' s' hj
          cases j with
          | zero =>
            have hj0 : m = m' ∧ s = s' := by simpa using hj
            obtain ⟨rfl, rfl⟩ := hj0
            exact ⟨hp, by simp, fun _ => rfl⟩
          | succ k =>
            have hjk : tl[k]? = some (m', s') := by simpa using hj
            simpa using hidx k m' s' hjk
      | true =>
        rw [if_pos rfl, listOrByte_append pre bm acc _ _ hin0] at hok
        cases hpay : serMemberPayloadGo serFn m s with
        | error e =>
          rw [hpay, errBind] at hok
          exact absurd hok (by simp)
        | ok c =>
          rw [hpay, okBind] at hok
          rw [show (pre ++ (listOrByte bm (m.fieldId / 8) (msbMask m.fieldId) ++ acc)) ++ c
              = pre ++ ((listOrByte bm (m.fieldId / 8) (msbMask m.fieldId)) ++ (acc ++ c))
              from by simp] at hok
          obtain ⟨flags, chunks, hf, hc, hbs, hidx⟩ :=
            ih pre _ (acc ++ c) bs
              (fun p hp' => by rw [listOrByte_length]; exact hin' p hp') hok
          refine ⟨true :: flags, c :: chunks, by simp [hf], by simp [hc], ?_, ?_⟩
          · rw [hbs]
            rw [show patchBitmap bm ((m, s) :: tl) (true :: flags)
                = patchBitmap (listOrByte bm (m.fieldId / 8) (msbMask m.fieldId)) tl flags
                from rfl]
            simp
          · intro j m' s' hj
            cases j with
            | zero =>
              have hj0 : m = m' ∧ s = s' := by simpa using hj
              obtain ⟨rfl, rfl⟩ := hj0
              exact ⟨hp, fun _ => hpay, by simp⟩
            | succ k =>
              have hjk : tl[k]? = some (m', s') := by simpa using hj
              simpa using hidx k m' s' hjk

/-- A patch for field id `f` leaves the bit at field id `g`'s position
untouched when `f ≠ g`. -/
theorem listOrByte_getD_testBit_ne (bm : List Nat) (f g : Nat)
    (hne : f ≠ g) (hf : f / 8 < bm.length) :
    ((listOrByte bm (f / 8) (msbMask f)).getD (g / 8) 0).testBit (7 - g % 8)
      = (bm.getD (g / 8) 0).testBit (7 - g % 8) := by
  unfold listOrByte
  by_cases hbyte : f / 8 = g / 8
  · have hset : (bm.set (f / 8) (bm.getD (f / 8) 0 ||| msbMask f)).getD (g / 8) 0
        = bm.getD (f / 8) 0 ||| msbMask f := by
      rw [← hbyte, List.getD_eq_getElem?_getD, List.getElem?_set_self']
      simp [List.getElem?_eq_getElem hf]
    rw [hset, Nat.testBit_or, msbMask_eq, Nat.testBit_two_pow]
    have hm8 : f % 8 ≠ g % 8 := by omega
    have : (7 - f % 8) ≠ (7 - g % 8) := by omega
    simp [this, hbyte]
  · rw [List.getD_eq_getElem?_getD, List.getElem?_set_ne hbyte,
      ← List.getD_eq_getElem?_getD]

/-- Patches for a set of field ids not containing `g` leave the bit at `g`'s
position untouched. -/
theorem patchBitmap_getD_testBit_not_mem :
    ∀ (ms : List (StructMember × Option Value)) (flags : List Bool) (bm : List Nat) (g : Nat),
    (∀ p ∈ ms, p.1.fieldId ≠ g) → (∀ p ∈ ms, p.1.fieldId / 8 < bm.length) →
    ((patchBitmap bm ms flags).getD (g / 8) 0).testBit (7 - g % 8)
      = (bm.getD (g / 8) 0).testBit (7 - g % 8) := by
  intro ms
  induction ms with
  | nil => intro flags bm g _ _; rfl
  | cons hd tl ih =>
    intro flags bm g hg hin
    obtain ⟨m, s⟩ := hd
    cases flags with
    | nil => rfl
    | cons fl fls =>
      rw [show patchBitmap bm ((m, s) :: tl) (fl :: fls)
          = patchBitmap (if fl then listOrByte bm (m.fieldId / 8) (msbMask m.fieldId) else bm)
              tl fls from rfl]
      have hlen' : (if fl then listOrByte bm (m.fieldId / 8) (msbMask m.fieldId) else bm).length
          = bm.length := by
        cases fl <;> simp [listOrByte_length]
      rw [ih fls _ g (fun p hp => hg p (List.mem_cons_of_mem _ hp))
        (fun p hp => by rw [hlen']; exact hin p (List.mem_cons_of_mem _ hp))]
      cases fl
      · rfl
      · exact listOrByte_getD_testBit_ne bm m.fieldId g
          (hg (m, s) (List.mem_cons_self _ _)) (hin (m, s) (List.mem_cons_self _ _))

/-- With pairwise distinct field ids, the final bit at member `j`'s position
is its flag (or the original bit). -/
theorem patchBitmap_getD_testBit_hit :
    ∀ (ms : List (StructMember × Option Value)) (flags : List Bool) (bm : List Nat)
      (j : Nat) (m : StructMember) (s : Option Value),
    ms[j]? = some (m, s) → j < flags.length →
    ((ms.map (fun p => p.1.fieldId)).Nodup) →
    (∀ p ∈ ms, p.1.fieldId / 8 < bm.length) →
    ((patchBitmap bm ms flags).getD (m.fieldId / 8) 0).testBit (7 - m.fieldId % 8)
      = (flags.getD j false || (bm.getD (m.fieldId / 8) 0).testBit (7 - m.fieldId % 8)) := by
  intro ms
  induction ms with
  | nil => intro flags bm j m s hj; simp at hj
  | cons hd tl ih =>
    intro flags bm j m s hj hjf hnd hin
    obtain ⟨m0, s0⟩ := hd
    cases flags with
    | nil => simp at hjf
    | cons fl fls =>
      have hnds : (∀ (x : StructMember) (x1 : Option Value),
            (x, x1) ∈ tl → ¬x.fieldId = m0.fieldId)
          ∧ (tl.map (fun p => p.1.fieldId)).Nodup := by simpa using hnd
      have htl : (tl.map (fun p => p.1.fieldId)).Nodup := hnds.2
      rw [show patchBitmap bm ((m0, s0) :: tl) (fl :: fls)
          = patchBitmap (if fl then listOrByte bm (m0.fieldId / 8) (msbMask m0.fieldId) else bm)
              tl fls from rfl]
      have hlen' : (if fl then listOrByte bm (m0.fieldId / 8) (msbMask m0.fieldId) else bm).length
          = bm.length := by
        cases fl <;> simp [listOrByte_length]
      have hf8 : m0.fieldId / 8 < bm.length := hin (m0, s0) (List.mem_cons_self _ _)
      cases j with
      | zero =>
        have hj0 : m0 = m ∧ s0 = s := by simpa using hj
        obtain ⟨rfl, rfl⟩ := hj0
        have hnm : ∀ p ∈ tl, p.1.fieldId ≠ m0.fieldId := by
          intro p hp heq
          exact hnds.1 p.1 p.2 hp heq
        rw [patchBitmap_getD_testBit_not_mem tl fls _ m0.fieldId hnm
          (fun p hp => by rw [hlen']; exact hin p (List.mem_cons_of_mem _ hp))]
        cases fl
        · simp
        · rw [show (if true then listOrByte bm (m0.fieldId / 8) (msbMask m0.fieldId) else bm)
              = listOrByte bm (m0.fieldId / 8) (msbMask m0.fieldId) from rfl]
          unfold listOrByte
          have hset : (bm.set (m0.fieldId / 8)
                (bm.getD (m0.fieldId / 8) 0 ||| msbMask m0.fieldId)).getD (m0.fieldId / 8) 0
              = bm.getD (m0.fieldId / 8) 0 ||| msbMask m0.fieldId := by
            rw [List.getD_eq_getElem?_getD, List.getElem?_set_self']
            simp [List.getElem?_eq_getElem hf8]
          rw [hset, Nat.testBit_or, msbMask_eq, Nat.testBit_two_pow]
          simp
      | succ k =>
        have hjk : tl[k]? = some (m, s) := by simpa using hj
        have hkf : k < fls.length := by simpa using hjf
        rw [ih fls _ k m s hjk hkf htl
          (fun p hp => by rw [hlen']; exact hin p (List.mem_cons_of_mem _ hp))]
        have hne : m0.fieldId ≠ m.fieldId := by
          intro heq
          exact hnds.1 m s (List.getElem?_mem hjk) heq.symm
        cases fl
        · rfl
        · rw [show (if true then listOrByte bm (m0.fieldId / 8) (msbMask m0.fieldId) else bm)
              = listOrByte bm (m0.fieldId / 8) (msbMask m0.fieldId) from rfl,
            listOrByte_getD_testBit_ne bm m0.fieldId m.fieldId hne hf8]
          rfl

/-- With field ids equal to member indices (the resolver's assignment), the
field ids of the zipped member/slot list are exactly `range`. -/
theorem zip_map_fieldId_eq_range (ms : List StructMember) (slots : List (Option Value))
    (hlen : slots.length = ms.length)
    (hfid : ∀ (i : Nat) (m : StructMember), ms[i]? = some m → m.fieldId = i) :
    ((ms.zip slots).map (fun p => p.1.fieldId)) = List.range ms.length := by
  apply List.ext_getElem?
  intro i
  rw [List.getElem?_map]
  by_cases hi : i < ms.length
  · have hi2 : i < slots.length := by omega
    have hm : ms[i]? = some (ms.get ⟨i, hi⟩) := List.getElem?_eq_getElem hi
    have hs : slots[i]? = some (slots.get ⟨i, hi2⟩) := List.getElem?_eq_getElem hi2
    have hzip : (ms.zip slots)[i]? = some (ms.get ⟨i, hi⟩, slots.get ⟨i, hi2⟩) :=
      List.getElem?_zip_eq_some.mpr ⟨hm, hs⟩
    rw [hzip]
    simp [List.getElem?_range, hi]
    exact hfid i _ (List.getElem?_eq_getElem hi)
  · have hz : (ms.zip slots)[i]? = none := by
      rw [List.getElem?_eq_none_iff, List.length_zip, hlen]
      omega
    have hr : (List.range ms.length)[i]? = none := by
      rw [List.getElem?_eq_none_iff, List.length_range]
      omega
    rw [hz, hr]
    rfl

/-- Claim C3 (proved).  Whenever the generated `serialize` body succeeds, the
output splits as table-id prefix, presence bitmap of `ceil(N/8)` bytes (zero
bytes for a zero-member table), and the present members' payloads in
ascending field-id order: byte `field_id / 8` of the bitmap has bit
`7 - (field_id & 7)` equal to the member's presence, absent members
contribute an empty chunk, and each present member's chunk is its payload.
In particular scenario A evaluates to `00 F0 01 02 03 02`. -/
theorem C3_presence_bitmap_layout
    (serFn : StructDef → List (Option Value) → Except PyErr (List Nat))
    (d : StructDef) (slots : List (Option Value)) (bs : List Nat)
    (hlen : slots.length = d.members.length)
    (hfid : ∀ (i : Nat) (m : StructMember), d.members[i]? = some m → m.fieldId = i)
    (hok : serInstBody serFn d slots = .ok bs) :
    ∃ (bm : List Nat) (flags : List Bool) (chunks : List (List Nat)),
      bs = tableIdBytes d.tableId ++ bm ++ chunks.flatten ∧
      bm.length = (d.members.length + 7) / 8 ∧
      flags.length = d.members.length ∧ chunks.length = d.members.length ∧
      (∀ (i : Nat) (m : StructMember) (s : Option Value),
        d.members[i]? = some m → slots[i]? = some s →
          memberPresent m s = .ok (flags.getD i false) ∧
          (bm.getD (m.fieldId / 8) 0).testBit (7 - (m.fieldId &&& 7)) = flags.getD i false ∧
          (flags.getD i false = true → serMemberPayloadGo serFn m s = .ok (chunks.getD i [])) ∧
          (flags.getD i false = false → chunks.getD i [] = [])) ∧
      serializeRec 3 pixelDef [some (.vInt 1), some (.vInt 2), some (.vInt 3), some (.vEnum 2)]
        = .ok [0x00, 0xF0, 0x01, 0x02, 0x03, 0x02] := by
  have hwidth := bitfieldByteWidth_eq d.members.length
  have hzlen : (d.members.zip slots).length = d.members.length := by
    rw [List.length_zip, hlen]
    omega
  have hin : ∀ p ∈ d.members.zip slots,
      p.1.fieldId / 8 < (List.replicate (bitfieldByteWidth d.members.length) 0).length := by
    intro p hp
    obtain ⟨i, hi⟩ := List.mem_iff_getElem?.mp (List.of_mem_zip hp).1
    have hif : p.1.fieldId = i := hfid i _ hi
    have hilt : i < d.members.length := (List.getElem?_eq_some.mp hi).1
    rw [List.length_replicate, hif, hwidth]
    omega
  have hok' : serLoopGo serFn (tableIdBytes d.tableId).length (d.members.zip slots)
      (tableIdBytes d.tableId
        ++ (List.replicate (bitfieldByteWidth d.members.length) 0 ++ [])) = .ok bs := by
    rw [List.append_nil]
    exact hok
  obtain ⟨flags, chunks, hf, hc, hbs, hidx⟩ :=
    serLoopGo_split serFn (d.members.zip slots) (tableIdBytes d.tableId)
      (List.replicate (bitfieldByteWidth d.members.length) 0) [] bs hin hok'
  refine ⟨patchBitmap (List.replicate (bitfieldByteWidth d.members.length) 0)
      (d.members.zip slots) flags, flags, chunks,
    ?_, ?_, by rw [hf, hzlen], by rw [hc, hzlen], ?_, rfl⟩
  · rw [hbs]
    simp
  · rw [patchBitmap_length, List.length_replicate, hwidth]
  · intro i m s hm hs
    have hz : (d.members.zip slots)[i]? = some (m, s) :=
      List.getElem?_zip_eq_some.mpr ⟨hm, hs⟩
    obtain ⟨hpres, hpay, habs⟩ := hidx i m s hz
    refine ⟨hpres, ?_, hpay, habs⟩
    have hnd : ((d.members.zip slots).map (fun p => p.1.fieldId)).Nodup := by
      rw [zip_map_fieldId_eq_range d.members slots hlen hfid]
      exact List.nodup_range _
    have hjf : i < flags.length := by
      rw [hf, hzlen]
      exact (List.getElem?_eq_some.mp hm).1
    rw [land_seven,
      patchBitmap_getD_testBit_hit (d.members.zip slots) flags
        (List.replicate (bitfieldByteWidth d.members.length) 0) i m s hz hjf hnd hin]
    have hrep : (List.replicate (bitfieldByteWidth d.members.length) (0 : Nat)).getD
        (m.fieldId / 8) 0 = 0 := by
      rw [List.getD_eq_getElem?_getD]
      rcases hg : (List.replicate (bitfieldByteWidth d.members.length) (0 : Nat))[m.fieldId / 8]?
        with _ | a
      · rfl
      · have := List.getElem?_mem hg
        simp [List.eq_of_mem_replicate this]
    rw [hrep]
    simp

/-- Witness for `C3_presence_bitmap_layout` at the scenario-A Pixel value. -/
theorem C3_presence_bitmap_layout_witness :
    serInstBody (serializeRec 2) pixelDef
      [some (.vInt 1), some (.vInt 2), some (.vInt 3), some (.vEnum 2)]
      = .ok [0x00, 0xF0, 0x01, 0x02, 0x03, 0x02] ∧
    ∃ (bm : List Nat) (flags : List Bool) (chunks : List (List Nat)),
      [0x00, 0xF0, 0x01, 0x02, 0x03, 0x02]
        = tableIdBytes pixelDef.tableId ++ bm ++ chunks.flatten ∧
      bm.length = (pixelDef.members.length + 7) / 8 ∧
      flags.length = pixelDef.members.length ∧ chunks.length = pixelDef.members.length ∧
      (∀ (i : Nat) (m : StructMember) (s : Option Value),
        pixelDef.members[i]? = some m →
        ([some (.vInt 1), some (.vInt 2), some (.vInt 3), some (.vEnum 2)]
            : List (Option Value))[i]? = some s →
          memberPresent m s = .ok (flags.getD i false) ∧
          (bm.getD (m.fieldId / 8) 0).testBit (7 - (m.fieldId &&& 7)) = flags.getD i false ∧
          (flags.getD i false = true →
            serMemberPayloadGo (serializeRec 2) m s = .ok (chunks.getD i [])) ∧
          (flags.getD i false = false → chunks.getD i [] = [])) ∧
      serializeRec 3 pixelDef [some (.vInt 1), some (.vInt 2), some (.vInt 3), some (.vEnum 2)]
        = .ok [0x00, 0xF0, 0x01, 0x02, 0x03, 0x02] := by
  refine ⟨rfl, ?_⟩
  exact C3_presence_bitmap_layout (serializeRec 2) pixelDef
    [some (.vInt 1), some (.vInt 2), some (.vInt 3), some (.vEnum 2)]
    [0x00, 0xF0, 0x01, 0x02, 0x03, 0x02] rfl
    (by
      intro i m h
      match i with
      | 0 | 1 | 2 | 3 =>
        rw [← Option.some.inj h]
        rfl
      | n+4 =>
        rw [show pixelDef.members[n+4]? = (none : Option StructMember) from rfl] at h
        cases h)
    rfl

end SeriaLib
